import Mathlib

/-!
Verification of the experiment repository's embedding cache, stratified
sampler and IR evaluators, shallowly embedded from the Python sources
(src/utils/embedding_cache.py, src/utils/sampler.py,
src/implementations/evaluators/search_evaluator.py,
src/implementations/evaluators/retrieval_evaluator.py).

Filesystem state is explicit (a map from cache key to an optional
directory of three optional artifacts); pickle/numpy/json serialization
is modelled as the identity on the stored payloads with an explicit
corruption marker for undecodable files; the global `random` module is
modelled as an explicitly threaded deterministic generator state.
-/

namespace EmbeddingCache

/-- A file's decoded content: either it decodes to a value or it is
present but undecodable (pickle/numpy/json decode error on read). -/
inductive FileData (α : Type) where
  | ok (a : α)
  | corrupt
deriving DecidableEq

/-- metadata.json as written by EmbeddingCache.save (lines 95-101).
`created_at` is the ambient wall-clock string. -/
structure Metadata (Info : Type) where
  cache_key : String
  document_count : Nat
  embedding_dimension : Nat
  created_at : String
  additional_info : Info
deriving DecidableEq

/-- One cache directory: the three artifacts, each possibly absent. -/
structure CacheDir (Doc Val Info : Type) where
  processed_documents : Option (FileData (List Doc))
  embeddings : Option (FileData (List (List Val)))
  metadata : Option (FileData (Metadata Info))
deriving DecidableEq

/-- The cache root: one optional directory per cache key. -/
def FS (Doc Val Info : Type) := String → Option (CacheDir Doc Val Info)

variable {Doc Val Info : Type}

/-- Replace the directory stored under one key. -/
def FS.update (fs : FS Doc Val Info) (key : String)
    (d : Option (CacheDir Doc Val Info)) : FS Doc Val Info :=
  fun k => if k = key then d else fs k

/-- EmbeddingCache.exists (lines 55-64): all three required files are
present under the key's directory.  Presence only: contents are not
read, so no decode is attempted. -/
def existsKey (fs : FS Doc Val Info) (key : String) : Bool :=
  match fs key with
  | none => false
  | some d =>
      d.processed_documents.isSome && d.embeddings.isSome && d.metadata.isSome

/-- Errors raised by load: cache miss (ValueError, line 128) or a decode
failure while reading an artifact (re-raised, line 154). -/
inductive CacheError where
  | miss
  | decodeError
deriving DecidableEq

/-- EmbeddingCache.save (lines 66-115) with failure injection: `failAt`
names the artifact write (0 = documents, 1 = embeddings, 2 = metadata)
that raises mid-save.  On failure the except branch calls
_cleanup_partial_cache (lines 216-223), which removes the whole key
directory, and re-raises; the Bool result records success.
mkdir(parents=True, exist_ok=True) keeps an existing directory's files,
and each artifact write overwrites the previous file of the same name.
Serialization (pickle / np.save of the rectangular float matrix / json)
is modelled as the identity on the payload. -/
def save (fs : FS Doc Val Info) (key : String) (docs : List Doc)
    (embs : List (List Val)) (info : Info) (now : String)
    (failAt : Option (Fin 3)) : FS Doc Val Info × Bool :=
  let d0 := (fs key).getD ⟨none, none, none⟩
  if failAt = some 0 then (FS.update fs key none, false)
  else
    let d1 := { d0 with processed_documents := some (.ok docs) }
    if failAt = some 1 then (FS.update fs key none, false)
    else
      let d2 := { d1 with embeddings := some (.ok embs) }
      if failAt = some 2 then (FS.update fs key none, false)
      else
        let dim := match embs with
          | [] => 0
          | v :: _ => v.length
        let meta : Metadata Info :=
          ⟨key, docs.length, dim, now, info⟩
        let d3 := { d2 with metadata := some (.ok meta) }
        (FS.update fs key (some d3), true)

/-- EmbeddingCache.load (lines 117-154): raise a miss unless exists is
true, then read and decode the three artifacts, re-raising any decode
failure; on success return the documents and embeddings as saved. -/
def load (fs : FS Doc Val Info) (key : String) :
    Except CacheError (List Doc × List (List Val)) :=
  if existsKey fs key then
    match fs key with
    | none => Except.error CacheError.miss
    | some d =>
        match d.processed_documents, d.embeddings, d.metadata with
        | some (.ok ds), some (.ok es), some (.ok _) => Except.ok (ds, es)
        | _, _, _ => Except.error CacheError.decodeError
  else Except.error CacheError.miss

/-- The two single-character replaces of line 36
(model_name.replace with "-" to "_", then "." to "_"), written as one
per-character map since both patterns are single characters. -/
def sanitizeModelName (model_name : String) : String :=
  String.mk (model_name.data.map
    (fun c => if c = '-' then '_' else if c = '.' then '_' else c))

/-- EmbeddingCache.generate_cache_key (lines 24-49): normalize the model
name, append the chunker part (type, then chunk_size and chunk_overlap
when present, except for the no_chunk strategy).  The source contains no
validation and no raise statement, so the model is a total function. -/
def generate_cache_key (model_name : String) (chunker_type : String)
    (chunk_size chunk_overlap : Option Int) : String :=
  let model_part := sanitizeModelName model_name
  let chunk_part :=
    if chunker_type = "no_chunk" then "no_chunk"
    else
      let cp := chunker_type
      let cp := match chunk_size with
        | some n => cp ++ "_" ++ toString n
        | none => cp
      match chunk_overlap with
      | some n => cp ++ "_" ++ toString n
      | none => cp
  model_part ++ "_" ++ chunk_part

/-- Modelled from the spec (section 4.1): the cache-key builder as the
spec describes it, failing with InvalidConfigError when a required field
(model name, chunker type) is empty, and otherwise producing the key the
code builds.  Used only to compare the code against the spec's words. -/
def generate_cache_key_checked (model_name : String) (chunker_type : String)
    (chunk_size chunk_overlap : Option Int) : Except String String :=
  if model_name = "" ∨ chunker_type = "" then
    Except.error "InvalidConfigError"
  else
    Except.ok (generate_cache_key model_name chunker_type chunk_size chunk_overlap)

end EmbeddingCache

namespace StratifiedSampler

/-!
src/utils/sampler.py.  Queries are opaque values of a type `Q`; the
composite `fun q => _generate_profile_hash (q.user_profile)` (lines
27-42: canonical-JSON serialization followed by an 8-hex-character MD5
prefix) is abstracted as a function `hash : Q → String`, since the
sampler inspects a query only through that hash.  Python's global
Mersenne Twister is modelled as an explicitly threaded `Nat` state with
a concrete deterministic step function; `random.seed` installs the
state, and each draw of an index below `n` reads `state % n` and steps
the state. -/

/-- One step of the deterministic generator (a 64-bit LCG standing in
for the Mersenne Twister's state update). -/
def rngStep (s : Nat) : Nat :=
  (6364136223846793005 * s + 1442695040888963407) % 18446744073709551616

/-- random.seed(seed) in StratifiedSampler.__init__ (lines 18-25):
install a generator state that is a function of the seed alone. -/
def seedRng (seed : Nat) : Nat := rngStep seed

/-- random.sample(l, k): k draws without replacement — each draw picks
an index below the remaining population's length and removes the picked
element.  Both call sites guarantee k is at most the population size
(random.sample would raise otherwise); past that bound the model stops
early. -/
def sampleWoR {α : Type} : List α → Nat → Nat → List α × Nat
  | _, 0, s => ([], s)
  | l, k + 1, s =>
      if h : l.length = 0 then ([], s)
      else
        have hi : s % l.length < l.length :=
          Nat.mod_lt _ (Nat.pos_of_ne_zero h)
        let x := l.get ⟨s % l.length, hi⟩
        let r := sampleWoR (l.eraseIdx (s % l.length)) k (rngStep s)
        (x :: r.1, r.2)

/-- One defaultdict(list) insertion: append the query to its key's
group, creating the group at the end on first sight of the key
(Python dicts preserve insertion order). -/
def addToGroups {Q : Type} (groups : List (String × List Q)) (key : String)
    (q : Q) : List (String × List Q) :=
  match groups with
  | [] => [(key, [q])]
  | (k, g) :: rest =>
      if k = key then (k, g ++ [q]) :: rest
      else (k, g) :: addToGroups rest key q

/-- The grouping loop of _profile_based_sampling (lines 82-86):
profile_groups[hash(q.user_profile)].append(q) over the queries in
order, starting from the accumulated groups `gs`. -/
def groupByProfile {Q : Type} (hash : Q → String) :
    List Q → List (String × List Q) → List (String × List Q)
  | [], gs => gs
  | q :: qs, gs => groupByProfile hash qs (addToGroups gs (hash q) q)

/-- Dictionary access profile_groups[profile_hash] (line 125): the
group stored under a key (the call site only reads keys that are
present). -/
def dictGet {Q : Type} : List (String × List Q) → String → List Q
  | [], _ => []
  | (k, g) :: rest, key => if k = key then g else dictGet rest key

/-- StratifiedSampler._profile_based_sampling (lines 75-144): group by
profile hash; target min(available, sample_size) profiles; sample the
profile hashes without replacement, then one query from each selected
partition, all from the single threaded generator stream. -/
def profile_based_sampling {Q : Type} (hash : Q → String) (queries : List Q)
    (sample_size : Nat) (s : Nat) : List Q × Nat :=
  let groups := groupByProfile hash queries []
  let available := groups.length
  let target := if available < sample_size then available else sample_size
  let keys := groups.map Prod.fst
  let sel := sampleWoR keys target s
  sel.1.foldl
    (fun acc k =>
      let one := sampleWoR (dictGet groups k) 1 acc.2
      (acc.1 ++ one.1, one.2))
    ([], sel.2)

/-- StratifiedSampler._random_sampling (lines 146-148). -/
def random_sampling {Q : Type} (queries : List Q) (sample_size : Nat)
    (s : Nat) : List Q × Nat :=
  sampleWoR queries sample_size s

/-- StratifiedSampler.sample_queries (lines 44-73): if the whole input
is no larger than the sample size, return it unchanged (before any
grouping and before the strategy is even inspected); otherwise dispatch
on the strategy, raising ValueError on an unsupported one. -/
def sample_queries {Q : Type} (hash : Q → String) (s : Nat)
    (all_queries : List Q) (sample_size : Nat) (strategy : String) :
    Except String (List Q × Nat) :=
  if all_queries.length ≤ sample_size then Except.ok (all_queries, s)
  else if strategy = "profile_based" then
    Except.ok (profile_based_sampling hash all_queries sample_size s)
  else if strategy = "random" then
    Except.ok (random_sampling all_queries sample_size s)
  else Except.error "unsupported sampling strategy"

/-- generate_reproducible_seed (lines 151-160): hash the canonical JSON
serialization of the configuration and reduce mod 100000.  The MD5
digest-prefix-to-integer step is abstracted as `digest`, a function of
the serialized configuration string. -/
def generate_reproducible_seed (digest : String → Nat)
    (config_str : String) : Nat :=
  digest config_str % 100000

end StratifiedSampler

namespace SearchMetricsEvaluator

/-!
src/implementations/evaluators/search_evaluator.py.  A retrieved item is
inspected only through its metadata fields rec_idx / id / filename;
scores are exact rationals except for NDCG, whose log2 discounts live in
the reals. -/

/-- The metadata fields _extract_doc_id reads (line 222-225). -/
structure RetrievedDoc where
  rec_idx : Option String
  id : Option String
  filename : Option String
deriving DecidableEq

/-- Python's `a or b` on strings where a missing field reads as None:
the left value unless it is falsy (None or the empty string). -/
def pyOr (a b : String) : String := if a = "" then b else a

/-- SearchMetricsEvaluator._extract_doc_id (lines 222-225):
metadata.get('rec_idx') or metadata.get('id') or metadata.get('filename', ''). -/
def extract_doc_id (d : RetrievedDoc) : String :=
  pyOr (d.rec_idx.getD "") (pyOr (d.id.getD "") (d.filename.getD ""))

/-- One query's ranked retrieval result with its ground truth. -/
structure QueryResult where
  retrieved_docs : List RetrievedDoc
  ground_truth_docs : List String
deriving DecidableEq

/-- The retrieved_k extraction loop (lines 84-90 and 122-128): ids of
the top-k retrieved documents, dropping empty (falsy) ids. -/
def retrieved_k (qr : QueryResult) (k : Nat) : List String :=
  ((qr.retrieved_docs.take k).map extract_doc_id).filter (fun s => s ≠ "")

/-- Cardinality of set(a) ∩ set(b): the distinct elements of `a` that
also occur in `b`. -/
def interCard (a b : List String) : Nat :=
  (a.dedup.filter (fun x => x ∈ b)).length

/-- The per-query body of calculate_recall_at_k (lines 84-100), for a
query already known to have a non-empty ground truth. -/
def recall_contrib (qr : QueryResult) (k : Nat) : ℚ :=
  let relevant_retrieved := interCard qr.ground_truth_docs (retrieved_k qr k)
  let total_relevant := qr.ground_truth_docs.dedup.length
  if 0 < total_relevant then relevant_retrieved / total_relevant else 0

/-- The running (sum, valid_queries) state of an averaging loop that
skips queries with empty ground truth. -/
def averageSkippingEmpty (contrib : QueryResult → ℚ)
    (query_results : List QueryResult) : ℚ :=
  let acc := query_results.foldl
    (fun (acc : ℚ × Nat) qr =>
      if qr.ground_truth_docs = [] then acc
      else (acc.1 + contrib qr, acc.2 + 1))
    (0, 0)
  if 0 < acc.2 then acc.1 / acc.2 else 0

/-- SearchMetricsEvaluator.calculate_recall_at_k (lines 66-102): average
the per-query recall over the queries with non-empty ground truth; 0.0
when none qualify (which also covers an empty batch). -/
def calculate_recall_at_k (query_results : List QueryResult) (k : Nat) : ℚ :=
  averageSkippingEmpty (fun qr => recall_contrib qr k) query_results

/-- The per-query body of calculate_precision_at_k (lines 121-137):
relevant_retrieved / min(k, len(retrieved_k)) when any id was extracted,
else 0.0. -/
def precision_contrib (qr : QueryResult) (k : Nat) : ℚ :=
  let rk := retrieved_k qr k
  let relevant_retrieved := interCard qr.ground_truth_docs rk
  if rk = [] then 0 else relevant_retrieved / (min k rk.length)

/-- SearchMetricsEvaluator.calculate_precision_at_k (lines 104-139). -/
def calculate_precision_at_k (query_results : List QueryResult) (k : Nat) : ℚ :=
  averageSkippingEmpty (fun qr => precision_contrib qr k) query_results

/-- The first-relevant-rank search of calculate_mrr (lines 159-165),
1-based; none when no retrieved document matches the ground truth. -/
def first_relevant_rank (docs : List RetrievedDoc) (gt : List String)
    (rank : Nat) : Option Nat :=
  match docs with
  | [] => none
  | d :: ds =>
      let i := extract_doc_id d
      if i ≠ "" ∧ i ∈ gt then some rank
      else first_relevant_rank ds gt (rank + 1)

/-- The per-query body of calculate_mrr: 1/rank of the first relevant
hit, 0.0 when there is none. -/
def mrr_contrib (qr : QueryResult) : ℚ :=
  match first_relevant_rank qr.retrieved_docs qr.ground_truth_docs 1 with
  | some r => 1 / r
  | none => 0

/-- SearchMetricsEvaluator.calculate_mrr (lines 141-170). -/
def calculate_mrr (query_results : List QueryResult) : ℚ :=
  averageSkippingEmpty mrr_contrib query_results

/-- The precision-accumulation loop of _calculate_average_precision
(lines 230-238): walk the full ranked list, and at each relevant hit add
(relevant-so-far)/rank. -/
def ap_sum (docs : List RetrievedDoc) (gt : List String)
    (rank rel : Nat) : ℚ :=
  match docs with
  | [] => 0
  | d :: ds =>
      let i := extract_doc_id d
      if i ≠ "" ∧ i ∈ gt then
        ((rel + 1 : Nat) : ℚ) / rank + ap_sum ds gt (rank + 1) (rel + 1)
      else ap_sum ds gt (rank + 1) rel

/-- SearchMetricsEvaluator._calculate_average_precision (lines 227-241):
the accumulated precision sum over len(set(ground_truth)). -/
def average_precision (qr : QueryResult) : ℚ :=
  let total_relevant := qr.ground_truth_docs.dedup.length
  if 0 < total_relevant then
    ap_sum qr.retrieved_docs qr.ground_truth_docs 1 0 / total_relevant
  else 0

/-- SearchMetricsEvaluator.calculate_map (lines 172-191). -/
def calculate_map (query_results : List QueryResult) : ℚ :=
  averageSkippingEmpty average_precision query_results

/-- The discount the search evaluator applies at a 1-based rank: 1 at
rank 1 and 1/log2(rank) past it (lines 256-259 and 270-273 both follow
this shape). -/
noncomputable def searchDiscount (rank : Nat) : ℝ :=
  if rank = 1 then 1 else 1 / Real.logb 2 rank

/-- The DCG loop of _calculate_dcg_at_k (lines 248-259): binary
relevance, full relevance added at rank 1 and relevance/log2(rank)
afterwards. -/
noncomputable def dcg_sum (docs : List RetrievedDoc) (gt : List String)
    (rank : Nat) : ℝ :=
  match docs with
  | [] => 0
  | d :: ds =>
      let i := extract_doc_id d
      let relevance : ℝ := if i ≠ "" ∧ i ∈ gt then 1 else 0
      (if rank = 1 then relevance else relevance / Real.logb 2 rank) +
        dcg_sum ds gt (rank + 1)

/-- SearchMetricsEvaluator._calculate_dcg_at_k (lines 243-261): the
loop breaks once the rank exceeds k, so it ranges over the first k
retrieved documents. -/
noncomputable def dcg_at_k (qr : QueryResult) (k : Nat) : ℝ :=
  dcg_sum (qr.retrieved_docs.take k) qr.ground_truth_docs 1

/-- The IDCG loop of _calculate_ideal_dcg_at_k (lines 268-273): ranks 1
through n, adding 1.0 at rank 1 and 1/log2(rank) afterwards. -/
noncomputable def ideal_dcg_sum : Nat → ℝ
  | 0 => 0
  | n + 1 =>
      ideal_dcg_sum n + (if n + 1 = 1 then 1 else 1 / Real.logb 2 (n + 1))

/-- SearchMetricsEvaluator._calculate_ideal_dcg_at_k (lines 263-275):
ideal_k = min(k, len(ground_truth_docs)). -/
noncomputable def ideal_dcg_at_k (qr : QueryResult) (k : Nat) : ℝ :=
  ideal_dcg_sum (min k qr.ground_truth_docs.length)

/-- The per-query NDCG of calculate_ndcg (lines 210-217): dcg/idcg when
idcg is positive, else 0.0. -/
noncomputable def ndcg_per_query (qr : QueryResult) (k : Nat) : ℝ :=
  if 0 < ideal_dcg_at_k qr k then dcg_at_k qr k / ideal_dcg_at_k qr k else 0

/-- SearchMetricsEvaluator.calculate_ndcg (lines 193-220): average the
per-query NDCG over queries with non-empty ground truth. -/
noncomputable def calculate_ndcg (query_results : List QueryResult)
    (k : Nat) : ℝ :=
  let acc := query_results.foldl
    (fun (acc : ℝ × Nat) qr =>
      if qr.ground_truth_docs = [] then acc
      else (acc.1 + ndcg_per_query qr k, acc.2 + 1))
    (0, 0)
  if 0 < acc.2 then acc.1 / acc.2 else 0

/-- The number of queries an averaging loop of this evaluator actually
includes: those whose ground truth is non-empty. -/
def valid_query_count (query_results : List QueryResult) : Nat :=
  (query_results.filter (fun qr => qr.ground_truth_docs ≠ [])).length

end SearchMetricsEvaluator

namespace RetrieverEvaluator

/-!
src/implementations/evaluators/retrieval_evaluator.py.  This evaluator
works directly on lists of retrieved and ground-truth id strings. -/

/-- The DCG loop of calculate_ndcg_at_k (lines 77-80): over
retrieved[:k] with 1-based position i, add relevance/log2(i+1). -/
noncomputable def dcg_sum (ids : List String) (gt : List String)
    (i : Nat) : ℝ :=
  match ids with
  | [] => 0
  | x :: xs =>
      (if x ∈ gt then (1 : ℝ) else 0) / Real.logb 2 (i + 1) +
        dcg_sum xs gt (i + 1)

/-- The IDCG loop of calculate_ndcg_at_k (lines 82-84): the sum of
1/log2(i+1) for i = 1..n. -/
noncomputable def idcg_sum : Nat → ℝ
  | 0 => 0
  | n + 1 => idcg_sum n + 1 / Real.logb 2 (n + 1 + 1)

/-- RetrieverEvaluator.calculate_ndcg_at_k (lines 56-88): DCG over the
top k, IDCG over min(len(ground_truth_ids), k) ideal ranks, 0.0 when
IDCG is 0. -/
noncomputable def calculate_ndcg_at_k (retrieved_ids ground_truth_ids :
    List String) (k : Nat) : ℝ :=
  let dcg := dcg_sum (retrieved_ids.take k) ground_truth_ids 1
  let idcg := idcg_sum (min ground_truth_ids.length k)
  if idcg = 0 then 0 else dcg / idcg

/-- RetrieverEvaluator.calculate_recall_at_k (lines 90-121): 0.0 for an
empty ground truth, else |set(retrieved[:k]) ∩ set(gt)| over the
ground-truth list length. -/
def calculate_recall_at_k (retrieved_ids ground_truth_ids : List String)
    (k : Nat) : ℚ :=
  if ground_truth_ids.length = 0 then 0
  else
    (SearchMetricsEvaluator.interCard (retrieved_ids.take k)
      ground_truth_ids : ℚ) / ground_truth_ids.length

/-- RetrieverEvaluator.calculate_mrr_at_k (lines 123-148): 1/rank of the
first ground-truth hit within the top k, else 0.0. -/
def calculate_mrr_at_k (retrieved_ids ground_truth_ids : List String)
    (k : Nat) : ℚ :=
  mrrLoop (retrieved_ids.take k) ground_truth_ids 1
where
  mrrLoop : List String → List String → Nat → ℚ
    | [], _, _ => 0
    | x :: xs, gt, rank =>
        if x ∈ gt then 1 / rank else mrrLoop xs gt (rank + 1)

/-- RetrieverEvaluator.calculate_precision_at_k (lines 150-176): 0.0
when k = 0, else |set(retrieved[:k]) ∩ set(gt)| / k. -/
def calculate_precision_at_k (retrieved_ids ground_truth_ids :
    List String) (k : Nat) : ℚ :=
  if k = 0 then 0
  else
    (SearchMetricsEvaluator.interCard (retrieved_ids.take k)
      ground_truth_ids : ℚ) / k

/-- The five averaged metric values of one query, as evaluate_query
(lines 11-54) stores them under the keys the aggregation later reads
(the extra hits@20 / total_gt / search_time entries are never
averaged). -/
structure Metrics where
  ndcg10 : ℝ
  recall20 : ℚ
  mrr10 : ℚ
  precision3 : ℚ
  precision5 : ℚ

/-- RetrieverEvaluator.evaluate_query (lines 11-54) restricted to the
five metrics the aggregation averages. -/
noncomputable def evaluate_query (retrieved_rec_idxs ground_truth_rec_idxs :
    List String) : Metrics where
  ndcg10 := calculate_ndcg_at_k retrieved_rec_idxs ground_truth_rec_idxs 10
  recall20 := calculate_recall_at_k retrieved_rec_idxs ground_truth_rec_idxs 20
  mrr10 := calculate_mrr_at_k retrieved_rec_idxs ground_truth_rec_idxs 10
  precision3 := calculate_precision_at_k retrieved_rec_idxs ground_truth_rec_idxs 3
  precision5 := calculate_precision_at_k retrieved_rec_idxs ground_truth_rec_idxs 5

/-- The aggregate evaluate_all_queries returns (lines 178-231); the
per-query map is the input's metrics keyed by query id, echoed back. -/
structure AggregateResult where
  total_queries : Nat
  avg_ndcg10 : ℝ
  avg_recall20 : ℚ
  avg_mrr10 : ℚ
  avg_precision3 : ℚ
  avg_precision5 : ℚ
  per_query_metrics : List (String × Metrics)

/-- RetrieverEvaluator.evaluate_all_queries (lines 178-231): none for an
empty batch (the error dictionary), otherwise each metric's sum over
every result divided by the total number of queries — no query is
skipped, whatever its ground truth was. -/
noncomputable def evaluate_all_queries (results : List (String × Metrics)) :
    Option AggregateResult :=
  if results.length = 0 then none
  else
    some
      { total_queries := results.length
        avg_ndcg10 :=
          (results.foldl (fun a r => a + r.2.ndcg10) 0) / results.length
        avg_recall20 :=
          (results.foldl (fun a r => a + r.2.recall20) 0) / results.length
        avg_mrr10 :=
          (results.foldl (fun a r => a + r.2.mrr10) 0) / results.length
        avg_precision3 :=
          (results.foldl (fun a r => a + r.2.precision3) 0) / results.length
        avg_precision5 :=
          (results.foldl (fun a r => a + r.2.precision5) 0) / results.length
        per_query_metrics := results }

end RetrieverEvaluator

namespace SpecNDCG

/-!
Modelled from the spec (section 4.3, NDCG): the permitted convention —
binary relevance, discount 1/log2(rank+1) (its two phrasings coincide,
since 1/log2(1+1) = 1 at rank 1), IDCG with all min(k, number of
ground-truth items) relevant items at the top ranks, NDCG defined as 0
when IDCG is 0.  Used only to compare the two evaluators against the
spec's words. -/

/-- DCG under the spec's permitted convention: relevance/log2(rank+1)
over the top-k retrieved ids at 1-based ranks. -/
noncomputable def spec_dcg_sum (ids : List String) (gt : List String)
    (rank : Nat) : ℝ :=
  match ids with
  | [] => 0
  | x :: xs =>
      (if x ∈ gt then (1 : ℝ) else 0) / Real.logb 2 (rank + 1) +
        spec_dcg_sum xs gt (rank + 1)

/-- IDCG under the spec's permitted convention: 1/log2(rank+1) summed
over ranks 1..n. -/
noncomputable def spec_idcg_sum : Nat → ℝ
  | 0 => 0
  | n + 1 => spec_idcg_sum n + 1 / Real.logb 2 (n + 1 + 1)

/-- Modelled from the spec: NDCG@k = DCG@k / IDCG@k with the permitted
discount, IDCG over min(k, number of ground-truth items) top ranks, and
0 when IDCG is 0. -/
noncomputable def spec_ndcg (retrieved_ids ground_truth_ids : List String)
    (k : Nat) : ℝ :=
  let dcg := spec_dcg_sum (retrieved_ids.take k) ground_truth_ids 1
  let idcg := spec_idcg_sum (min k ground_truth_ids.length)
  if idcg = 0 then 0 else dcg / idcg

end SpecNDCG

/-! ### Auxiliary concrete states for the claims -/

/-- A cache state whose single entry has all three artifact files
present, but an undecodable documents blob. -/
def corruptFS : EmbeddingCache.FS Nat Nat Unit :=
  fun k =>
    if k = "k" then
      some ⟨some .corrupt, some (.ok [[5]]), some (.ok ⟨"k", 1, 1, "t", ()⟩)⟩
    else none

/-- A concrete profile-hash function over Nat-labelled queries: queries
0 and 1 share one profile, queries 2 and 3 another. -/
def twoProfileHash (q : Nat) : String := if q ≤ 1 then "profA" else "profB"

/-- Four queries over two distinct profiles. -/
def fourQueries : List Nat := [0, 1, 2, 3]

/-- The query list a sampler run produced (empty for the error case);
used to state properties of the selection irrespective of the final
generator state. -/
def resultList {Q : Type} (r : Except String (List Q × Nat)) : List Q :=
  match r with
  | Except.ok p => p.1
  | Except.error _ => []

/-- The profile-grouping invariant: every partition is non-empty and
holds only queries whose profile hash is its key. -/
def GroupsInv {Q : Type} (hash : Q → String)
    (gs : List (String × List Q)) : Prop :=
  ∀ p ∈ gs, p.2 ≠ [] ∧ ∀ x ∈ p.2, hash x = p.1

/-! ### Claims about the embedding cache -/

open EmbeddingCache in
/-- C1: a save that fails while writing any of the three artifacts
removes the key's partially written directory before re-raising, so the
failed save reports failure, exists(key) is false afterwards, and
load(key) fails with a cache miss instead of returning partial data. -/
theorem save_failure_cleans_up {Doc Val Info : Type}
    (fs : FS Doc Val Info) (key : String) (docs : List Doc)
    (embs : List (List Val)) (info : Info) (now : String) (i : Fin 3) :
    (save fs key docs embs info now (some i)).2 = false ∧
    existsKey (save fs key docs embs info now (some i)).1 key = false ∧
    load (save fs key docs embs info now (some i)).1 key =
      Except.error CacheError.miss := by
  fin_cases i <;>
    simp [save, existsKey, load, FS.update]

open EmbeddingCache in
/-- C2: for documents and embeddings of matching lengths, a successful
save followed by load returns exactly the saved documents and
embeddings, element-wise and in order. -/
theorem save_load_roundtrip {Doc Val Info : Type}
    (fs : FS Doc Val Info) (key : String) (docs : List Doc)
    (embs : List (List Val)) (info : Info) (now : String)
    (_h : docs.length = embs.length) :
    (save fs key docs embs info now none).2 = true ∧
    load (save fs key docs embs info now none).1 key =
      Except.ok (docs, embs) := by
  refine ⟨rfl, ?_⟩
  simp [save, load, existsKey, FS.update]

/-- Witness for C2 at a concrete cache state and payload. -/
theorem save_load_roundtrip_witness :
    ([0, 1] : List Nat).length = ([[5], [6]] : List (List Nat)).length ∧
    EmbeddingCache.load
      (EmbeddingCache.save (fun _ => none : EmbeddingCache.FS Nat Nat Unit)
        "k" [0, 1] [[5], [6]] () "t" none).1 "k" =
      Except.ok ([0, 1], [[5], [6]]) :=
  ⟨rfl,
    (@save_load_roundtrip Nat Nat Unit (fun _ => none) "k" [0, 1] [[5], [6]]
      () "t" rfl).2⟩

/-- C3, counterexample: a key whose three artifact files are all present
but whose documents blob is undecodable.  exists reports true — it only
checks file presence — even though the entry is not structurally intact
(load fails on it with a decode error), contradicting the claim that
exists is true only for entries readable without decode error. -/
theorem exists_ignores_corruption_counterexample :
    EmbeddingCache.existsKey corruptFS "k" = true ∧
    EmbeddingCache.load corruptFS "k" =
      Except.error EmbeddingCache.CacheError.decodeError := by
  constructor <;> rfl

open EmbeddingCache in
/-- C3, amended: exists(key) returns true iff all three artifact files
(documents blob, embeddings blob, metadata file) are present for the
key; it never reads their contents, so a present-but-undecodable entry
still reports true, and exists never raises (it is a total Boolean
check of presence). -/
theorem existsKey_checks_presence_only {Doc Val Info : Type}
    (fs : FS Doc Val Info) (key : String) :
    existsKey fs key = true ↔
      ∃ d, fs key = some d ∧ d.processed_documents.isSome = true ∧
        d.embeddings.isSome = true ∧ d.metadata.isSome = true := by
  unfold existsKey
  cases h : fs key <;> simp [and_assoc]

/-- C9, counterexample: with an empty model name — an empty required
field — the cache-key builder does not fail with InvalidConfigError as
the claim states (the spec-modelled checked builder does); it returns
the ordinary concatenated key "_semantic_500_50". -/
theorem generate_cache_key_no_validation_counterexample :
    EmbeddingCache.generate_cache_key_checked "" "semantic"
      (some 500) (some 50) = Except.error "InvalidConfigError" ∧
    EmbeddingCache.generate_cache_key "" "semantic" (some 500) (some 50) =
      "_semantic_500_50" := by
  constructor <;> rfl

open EmbeddingCache in
/-- C9, amended: the cache-key builder never raises — it is a total
function returning a key string for every input, empty required fields
included; on inputs whose required fields (model name, chunker type)
are non-empty it agrees with the spec's validated builder. -/
theorem generate_cache_key_total_and_agrees (mn ct : String)
    (cs co : Option Int) (h1 : mn ≠ "") (h2 : ct ≠ "") :
    generate_cache_key_checked mn ct cs co =
      Except.ok (generate_cache_key mn ct cs co) := by
  simp [generate_cache_key_checked, h1, h2]

/-- Witness for the amended C9 at a concrete configuration. -/
theorem generate_cache_key_total_and_agrees_witness :
    ("text-embedding-3-small" ≠ "") ∧ ("semantic" ≠ "") ∧
    EmbeddingCache.generate_cache_key_checked "text-embedding-3-small"
      "semantic" (some 500) none =
      Except.ok (EmbeddingCache.generate_cache_key "text-embedding-3-small"
        "semantic" (some 500) none) :=
  ⟨by decide, by decide,
    generate_cache_key_total_and_agrees "text-embedding-3-small" "semantic"
      (some 500) none (by decide) (by decide)⟩

/-! ### Lemmas about the sampler's draws and grouping -/

namespace StratifiedSampler

theorem sampleWoR_length {α : Type} :
    ∀ (k : Nat) (l : List α) (s : Nat),
      (sampleWoR l k s).1.length = min k l.length := by
  intro k
  induction k with
  | zero => intro l s; simp [sampleWoR]
  | succ k ih =>
      intro l s
      by_cases h : l.length = 0
      · simp [sampleWoR, h]
      · have hpos : 0 < l.length := Nat.pos_of_ne_zero h
        have hi : s % l.length < l.length := Nat.mod_lt _ hpos
        have hrec := ih (l.eraseIdx (s % l.length)) (rngStep s)
        have hlen : (l.eraseIdx (s % l.length)).length = l.length - 1 := by
          rw [List.length_eraseIdx, if_pos hi]
        simp only [sampleWoR, h, dite_false, List.length_cons]
        rw [hrec, hlen]
        omega

theorem sampleWoR_mem {α : Type} :
    ∀ (k : Nat) (l : List α) (s : Nat) (x : α),
      x ∈ (sampleWoR l k s).1 → x ∈ l := by
  intro k
  induction k with
  | zero => intro l s x hx; simp [sampleWoR] at hx
  | succ k ih =>
      intro l s x hx
      by_cases h : l.length = 0
      · simp [sampleWoR, h] at hx
      · simp only [sampleWoR, h, dite_false, List.mem_cons] at hx
        rcases hx with hx | hx
        · rw [hx]; exact List.get_mem _ _ _
        · exact (List.eraseIdx_sublist l (s % l.length)).subset (ih _ _ _ hx)

theorem sampleWoR_nodup {α : Type} :
    ∀ (k : Nat) (l : List α) (s : Nat), l.Nodup → (sampleWoR l k s).1.Nodup := by
  intro k
  induction k with
  | zero => intro l s _; simp [sampleWoR]
  | succ k ih =>
      intro l s hnd
      by_cases h : l.length = 0
      · simp [sampleWoR, h]
      · have hpos : 0 < l.length := Nat.pos_of_ne_zero h
        have hi : s % l.length < l.length := Nat.mod_lt _ hpos
        simp only [sampleWoR, h, dite_false, List.nodup_cons]
        refine ⟨?_, ih _ _ (hnd.sublist (List.eraseIdx_sublist l (s % l.length)))⟩
        intro hmem
        have hmem2 : l.get ⟨s % l.length, hi⟩ ∈ l.eraseIdx (s % l.length) :=
          sampleWoR_mem _ _ _ _ hmem
        rw [List.mem_eraseIdx_iff_getElem] at hmem2
        obtain ⟨j, hj, hne, hEq⟩ := hmem2
        rw [List.get_eq_getElem] at hEq
        exact hne (hnd.getElem_inj_iff.mp hEq)

theorem addToGroups_keys {Q : Type} (gs : List (String × List Q))
    (key : String) (q : Q) :
    (addToGroups gs key q).map Prod.fst =
      if key ∈ gs.map Prod.fst then gs.map Prod.fst
      else gs.map Prod.fst ++ [key] := by
  induction gs with
  | nil => simp [addToGroups]
  | cons p rest ih =>
      obtain ⟨k, g⟩ := p
      by_cases h : k = key
      · simp [addToGroups, h]
      · by_cases h2 : key ∈ rest.map Prod.fst
        · simp [addToGroups, h, ih, h2, Ne.symm h]
        · simp [addToGroups, h, ih, h2, Ne.symm h]

theorem addToGroups_keys_mem {Q : Type} (gs : List (String × List Q))
    (key : String) (q : Q) (x : String) :
    x ∈ (addToGroups gs key q).map Prod.fst ↔
      x ∈ gs.map Prod.fst ∨ x = key := by
  rw [addToGroups_keys]
  by_cases h : key ∈ gs.map Prod.fst
  · simp only [if_pos h]
    constructor
    · exact Or.inl
    · rintro (hx | rfl)
      · exact hx
      · exact h
  · simp [if_neg h]

theorem addToGroups_keys_nodup {Q : Type} (gs : List (String × List Q))
    (key : String) (q : Q) (h : (gs.map Prod.fst).Nodup) :
    ((addToGroups gs key q).map Prod.fst).Nodup := by
  rw [addToGroups_keys]
  by_cases hk : key ∈ gs.map Prod.fst
  · rw [if_pos hk]; exact h
  · rw [if_neg hk]
    exact h.append (List.nodup_singleton key)
      (by simpa [List.disjoint_right] using hk)

theorem addToGroups_inv {Q : Type} (hash : Q → String)
    (gs : List (String × List Q)) (key : String) (q : Q)
    (h : GroupsInv hash gs) (hq : hash q = key) :
    GroupsInv hash (addToGroups gs key q) := by
  induction gs with
  | nil =>
      intro p hp
      simp only [addToGroups, List.mem_singleton] at hp
      subst hp
      exact ⟨by simp, by intro x hx; simp at hx; subst hx; exact hq⟩
  | cons hd rest ih =>
      obtain ⟨k, g⟩ := hd
      have hhd := h (k, g) (List.mem_cons_self _ _)
      have hrest : GroupsInv hash rest := fun p hp => h p (List.mem_cons_of_mem _ hp)
      by_cases hk : k = key
      · intro p hp
        simp only [addToGroups, if_pos hk, List.mem_cons] at hp
        rcases hp with rfl | hp
        · refine ⟨by simp, ?_⟩
          intro x hx
          rcases List.mem_append.mp hx with hx | hx
          · exact hhd.2 x hx
          · simp at hx; subst hx; rw [hq, hk]
        · exact hrest p hp
      · intro p hp
        simp only [addToGroups, if_neg hk, List.mem_cons] at hp
        rcases hp with rfl | hp
        · exact hhd
        · exact ih hrest p hp

theorem groupByProfile_keys_nodup {Q : Type} (hash : Q → String) :
    ∀ (qs : List Q) (gs : List (String × List Q)),
      (gs.map Prod.fst).Nodup →
      ((groupByProfile hash qs gs).map Prod.fst).Nodup := by
  intro qs
  induction qs with
  | nil => intro gs h; simpa [groupByProfile] using h
  | cons q rest ih =>
      intro gs h
      exact ih _ (addToGroups_keys_nodup gs (hash q) q h)

theorem groupByProfile_inv {Q : Type} (hash : Q → String) :
    ∀ (qs : List Q) (gs : List (String × List Q)),
      GroupsInv hash gs → GroupsInv hash (groupByProfile hash qs gs) := by
  intro qs
  induction qs with
  | nil => intro gs h; simpa [groupByProfile] using h
  | cons q rest ih =>
      intro gs h
      exact ih _ (addToGroups_inv hash gs (hash q) q h rfl)

theorem groupByProfile_keys_mem {Q : Type} (hash : Q → String) :
    ∀ (qs : List Q) (gs : List (String × List Q)) (x : String),
      x ∈ (groupByProfile hash qs gs).map Prod.fst ↔
        x ∈ gs.map Prod.fst ∨ x ∈ qs.map hash := by
  intro qs
  induction qs with
  | nil => intro gs x; simp [groupByProfile]
  | cons q rest ih =>
      intro gs x
      simp only [groupByProfile]
      rw [ih]
      rw [addToGroups_keys_mem]
      simp only [List.map_cons, List.mem_cons]
      tauto

theorem groupByProfile_length_le {Q : Type} (hash : Q → String) :
    ∀ (qs : List Q) (gs : List (String × List Q)),
      (groupByProfile hash qs gs).length ≤ gs.length + qs.length := by
  intro qs
  induction qs with
  | nil => intro gs; simp [groupByProfile]
  | cons q rest ih =>
      intro gs
      have hadd : (addToGroups gs (hash q) q).length ≤ gs.length + 1 := by
        have := congrArg List.length (addToGroups_keys gs (hash q) q)
        simp only [List.length_map] at this
        by_cases h : hash q ∈ gs.map Prod.fst
        · rw [if_pos h] at this; simp at this; omega
        · rw [if_neg h] at this; simp at this; omega
      calc (groupByProfile hash (q :: rest) gs).length
      _ = (groupByProfile hash rest (addToGroups gs (hash q) q)).length := rfl
      _ ≤ (addToGroups gs (hash q) q).length + rest.length := ih _
      _ ≤ gs.length + (q :: rest).length := by simp [List.length_cons]; omega

theorem dictGet_mem {Q : Type} :
    ∀ (gs : List (String × List Q)) (key : String),
      key ∈ gs.map Prod.fst → (key, dictGet gs key) ∈ gs := by
  intro gs
  induction gs with
  | nil => intro key h; simp at h
  | cons p rest ih =>
      obtain ⟨k, g⟩ := p
      intro key h
      by_cases hk : k = key
      · subst hk; simp [dictGet]
      · simp only [List.map_cons, List.mem_cons] at h
        rcases h with h | h
        · exact absurd h.symm hk
        · exact List.mem_cons_of_mem _ (by simpa [dictGet, hk] using ih key h)

theorem fold_pick_one {Q : Type} (hash : Q → String)
    (groups : List (String × List Q)) (hinv : GroupsInv hash groups) :
    ∀ (sel : List String), (∀ k ∈ sel, k ∈ groups.map Prod.fst) →
      ∀ (acc : List Q) (s : Nat),
        ∃ l : List Q,
          (sel.foldl (fun acc k =>
            let one := sampleWoR (dictGet groups k) 1 acc.2
            (acc.1 ++ one.1, one.2)) (acc, s)).1 = acc ++ l ∧
          l.map hash = sel := by
  intro sel
  induction sel with
  | nil => intro _ acc s; exact ⟨[], by simp, rfl⟩
  | cons k rest ih =>
      intro hsub acc s
      have hk : k ∈ groups.map Prod.fst := hsub k (List.mem_cons_self _ _)
      have hgmem : (k, dictGet groups k) ∈ groups := dictGet_mem _ _ hk
      obtain ⟨hne, hall⟩ := hinv _ hgmem
      have hpos : 0 < (dictGet groups k).length := List.length_pos.mpr hne
      have hlen : (sampleWoR (dictGet groups k) 1 s).1.length = 1 := by
        rw [sampleWoR_length]; omega
      obtain ⟨x, hx⟩ := List.length_eq_one.mp hlen
      have hxg : x ∈ dictGet groups k := by
        apply sampleWoR_mem 1 (dictGet groups k) s
        rw [hx]; exact List.mem_singleton_self x
      have hhx : hash x = k := hall x hxg
      obtain ⟨l', hl', hmap⟩ :=
        ih (fun k' hk' => hsub k' (List.mem_cons_of_mem _ hk')) (acc ++ [x])
          (sampleWoR (dictGet groups k) 1 s).2
      refine ⟨x :: l', ?_, ?_⟩
      · rw [List.foldl_cons]
        simp only [hx] at hl' ⊢
        rw [hl']
        simp
      · simp [hmap, hhx]

theorem fold_sample_spec {Q : Type} (hash : Q → String)
    (G : List (String × List Q)) (hinv : GroupsInv hash G)
    (hnodup : (G.map Prod.fst).Nodup) (t s : Nat) (ht : t ≤ G.length) :
    (((sampleWoR (G.map Prod.fst) t s).1.foldl (fun acc k =>
        let one := sampleWoR (dictGet G k) 1 acc.2
        (acc.1 ++ one.1, one.2)) ([], (sampleWoR (G.map Prod.fst) t s).2)).1.length
      = t) ∧
    ((((sampleWoR (G.map Prod.fst) t s).1.foldl (fun acc k =>
        let one := sampleWoR (dictGet G k) 1 acc.2
        (acc.1 ++ one.1, one.2)) ([], (sampleWoR (G.map Prod.fst) t s).2)).1.map
          hash).Nodup) := by
  obtain ⟨l, hl, hmap⟩ :=
    fold_pick_one hash G hinv (sampleWoR (G.map Prod.fst) t s).1
      (fun k hk => sampleWoR_mem _ _ _ _ hk) []
      (sampleWoR (G.map Prod.fst) t s).2
  rw [List.nil_append] at hl
  have hlen : (sampleWoR (G.map Prod.fst) t s).1.length = t := by
    rw [sampleWoR_length, List.length_map]; omega
  constructor
  · rw [hl]
    have := congrArg List.length hmap
    simp only [List.length_map] at this
    rw [this, hlen]
  · rw [hl, hmap]
    exact sampleWoR_nodup t (G.map Prod.fst) s hnodup

theorem profile_based_sampling_spec {Q : Type} (hash : Q → String)
    (qs : List Q) (n s : Nat) :
    (profile_based_sampling hash qs n s).1.length =
      min (groupByProfile hash qs []).length n ∧
    ((profile_based_sampling hash qs n s).1.map hash).Nodup := by
  simp only [profile_based_sampling]
  generalize hG : groupByProfile hash qs [] = G
  have hinv : GroupsInv hash G := by
    rw [← hG]
    exact groupByProfile_inv hash qs [] (by intro p hp; simp at hp)
  have hnodup : (G.map Prod.fst).Nodup := by
    rw [← hG]
    exact groupByProfile_keys_nodup hash qs [] (by simp)
  rcases Nat.lt_or_ge G.length n with hlt | hge
  · have hif : (if G.length < n then G.length else n) = G.length := if_pos hlt
    have hmin : min G.length n = G.length := by omega
    rw [hif, hmin]
    exact fold_sample_spec hash G hinv hnodup G.length s le_rfl
  · have hif : (if G.length < n then G.length else n) = n :=
      if_neg (by omega)
    have hmin : min G.length n = n := by omega
    rw [hif, hmin]
    exact fold_sample_spec hash G hinv hnodup n s hge

end StratifiedSampler

/-! ### Claims about the stratified sampler -/

open StratifiedSampler in
/-- C10: whenever the input query list is no longer than sample_size,
sample_queries returns that list itself, unchanged and in order, before
any profile grouping and whatever the strategy argument is (even an
unsupported one); no profile de-duplication happens on this path, so
the result may keep several queries of one profile. -/
theorem sample_queries_small_input_identity {Q : Type} (hash : Q → String)
    (s : Nat) (qs : List Q) (n : Nat) (strat : String)
    (h : qs.length ≤ n) :
    sample_queries hash s qs n strat = Except.ok (qs, s) := by
  simp [sample_queries, h]

/-- Witness for C10: two queries sharing one profile hash, an
unsupported strategy string, and a sample size above the input size —
the input comes back unchanged, duplicate profiles included. -/
theorem sample_queries_small_input_identity_witness :
    ([10, 11] : List Nat).length ≤ 5 ∧
    StratifiedSampler.sample_queries (fun _ => "p") 7 ([10, 11] : List Nat)
      5 "unknown_strategy" = Except.ok ([10, 11], 7) :=
  ⟨by decide,
    sample_queries_small_input_identity (fun _ => "p") 7 [10, 11] 5
      "unknown_strategy" (by decide)⟩

open StratifiedSampler in
/-- C6: sampling is deterministic in the seed — two runs whose generator
states both come from seeding with the same value (explicit or derived)
give identical output over the same input, and the config-derived seed
of generate_reproducible_seed is itself a function of the serialized
configuration alone. -/
theorem sampler_reproducible {Q : Type} (hash : Q → String) (qs : List Q)
    (n : Nat) (strat : String) (seed st1 st2 : Nat)
    (h1 : st1 = seedRng seed) (h2 : st2 = seedRng seed) :
    sample_queries hash st1 qs n strat =
      sample_queries hash st2 qs n strat ∧
    ∀ (digest : String → Nat) (c1 c2 : String), c1 = c2 →
      generate_reproducible_seed digest c1 =
        generate_reproducible_seed digest c2 := by
  rw [h1, h2]
  exact ⟨rfl, fun _ _ _ hc => by rw [hc]⟩

/-- Witness for C6 at a concrete seed, input and sample size. -/
theorem sampler_reproducible_witness :
    StratifiedSampler.seedRng 42 = StratifiedSampler.seedRng 42 ∧
    StratifiedSampler.sample_queries twoProfileHash
        (StratifiedSampler.seedRng 42) fourQueries 2 "profile_based" =
      StratifiedSampler.sample_queries twoProfileHash
        (StratifiedSampler.seedRng 42) fourQueries 2 "profile_based" :=
  ⟨rfl,
    (sampler_reproducible twoProfileHash fourQueries 2 "profile_based" 42
      _ _ rfl rfl).1⟩

open StratifiedSampler in
/-- C5: for any input and any sample_size at most the number of distinct
profile-hash partitions, the sampler's output holds exactly sample_size
queries whose profile hashes are pairwise distinct — never two queries
of one profile. -/
theorem sampler_profile_uniqueness {Q : Type} (hash : Q → String)
    (qs : List Q) (n s : Nat)
    (h : n ≤ (groupByProfile hash qs []).length) :
    ∃ l s', sample_queries hash s qs n "profile_based" =
        Except.ok (l, s') ∧
      l.length = n ∧ (l.map hash).Nodup := by
  have hle := groupByProfile_length_le hash qs []
  simp only [List.length_nil, Nat.zero_add] at hle
  by_cases hsmall : qs.length ≤ n
  · refine ⟨qs, s, by simp [sample_queries, hsmall], by omega, ?_⟩
    have hlen_eq : (groupByProfile hash qs []).length = qs.length := by omega
    have hknodup := groupByProfile_keys_nodup hash qs [] (by simp)
    have hsub : ((groupByProfile hash qs []).map Prod.fst) ⊆ qs.map hash := by
      intro x hx
      have := (groupByProfile_keys_mem hash qs [] x).mp hx
      simpa using this
    have hlenk : ((groupByProfile hash qs []).map Prod.fst).length =
        qs.length := by
      rw [List.length_map, hlen_eq]
    have hperm : List.Perm ((groupByProfile hash qs []).map Prod.fst)
        (qs.map hash) := by
      apply (hknodup.subperm hsub).perm_of_length_le
      have h1 : (List.map hash qs).length = qs.length := List.length_map _ _
      omega
    exact hperm.nodup hknodup
  · have hspec := profile_based_sampling_spec hash qs n s
    refine ⟨(profile_based_sampling hash qs n s).1,
      (profile_based_sampling hash qs n s).2, ?_, ?_, hspec.2⟩
    · simp [sample_queries, show ¬qs.length ≤ n from hsmall]
    · rw [hspec.1]; omega

/-- Witness for C5: four queries over two profiles, sample size 2 — the
output is two queries of distinct profiles. -/
theorem sampler_profile_uniqueness_witness :
    2 ≤ (StratifiedSampler.groupByProfile twoProfileHash fourQueries
      []).length ∧
    ∃ l s', StratifiedSampler.sample_queries twoProfileHash
        (StratifiedSampler.seedRng 1) fourQueries 2 "profile_based" =
          Except.ok (l, s') ∧
      l.length = 2 ∧ (l.map twoProfileHash).Nodup :=
  ⟨by decide,
    sampler_profile_uniqueness twoProfileHash fourQueries 2
      (StratifiedSampler.seedRng 1) (by decide)⟩

/-- C4, counterexample: four queries over two distinct profiles and a
requested sample size of 3.  The number of partitions (2) is at most the
sample size, yet the sampler does not return the full input query set —
it reaches the profile-based path (the input is longer than the sample
size) and selects one query per partition, two queries in total. -/
theorem sampler_full_set_counterexample :
    (StratifiedSampler.groupByProfile twoProfileHash fourQueries []).length
      ≤ 3 ∧
    resultList (StratifiedSampler.sample_queries twoProfileHash
      (StratifiedSampler.seedRng 0) fourQueries 3 "profile_based") ≠
        fourQueries := by
  refine ⟨by decide, ?_⟩
  decide

open StratifiedSampler in
/-- C4, amended: when the input is longer than sample_size but the
number of distinct profile-hash partitions is at most sample_size, the
profile-based sampler returns one query from each partition — exactly
`available` queries with pairwise-distinct profile hashes — rather than
the full input set; the full set comes back only on the early path where
the whole input is no longer than sample_size. -/
theorem sampler_underflow_one_per_partition {Q : Type} (hash : Q → String)
    (qs : List Q) (n s : Nat) (h1 : n < qs.length)
    (h2 : (groupByProfile hash qs []).length ≤ n) :
    ∃ l s', sample_queries hash s qs n "profile_based" =
        Except.ok (l, s') ∧
      l.length = (groupByProfile hash qs []).length ∧
      (l.map hash).Nodup := by
  have hspec := profile_based_sampling_spec hash qs n s
  refine ⟨(profile_based_sampling hash qs n s).1,
    (profile_based_sampling hash qs n s).2, ?_, ?_, hspec.2⟩
  · simp [sample_queries, show ¬qs.length ≤ n from by omega]
  · rw [hspec.1]; omega

/-- Witness for the amended C4: the counterexample input yields exactly
one query per available partition. -/
theorem sampler_underflow_one_per_partition_witness :
    3 < fourQueries.length ∧
    (StratifiedSampler.groupByProfile twoProfileHash fourQueries []).length
      ≤ 3 ∧
    ∃ l s', StratifiedSampler.sample_queries twoProfileHash
        (StratifiedSampler.seedRng 0) fourQueries 3 "profile_based" =
          Except.ok (l, s') ∧
      l.length = (StratifiedSampler.groupByProfile twoProfileHash
        fourQueries []).length ∧
      (l.map twoProfileHash).Nodup :=
  ⟨by decide, by decide,
    sampler_underflow_one_per_partition twoProfileHash fourQueries 3
      (StratifiedSampler.seedRng 0) (by decide) (by decide)⟩

/-! ### Lemmas about the evaluators' averaging loops -/

namespace SearchMetricsEvaluator

theorem averageSkippingEmpty_append_empty (contrib : QueryResult → ℚ)
    (qrs : List QueryResult) (q : QueryResult)
    (hq : q.ground_truth_docs = []) :
    averageSkippingEmpty contrib (qrs ++ [q]) =
      averageSkippingEmpty contrib qrs := by
  simp [averageSkippingEmpty, List.foldl_append, hq]

theorem calculate_ndcg_append_empty (qrs : List QueryResult)
    (q : QueryResult) (k : Nat) (hq : q.ground_truth_docs = []) :
    calculate_ndcg (qrs ++ [q]) k = calculate_ndcg qrs k := by
  simp [calculate_ndcg, List.foldl_append, hq]

theorem valid_query_count_append_empty (qrs : List QueryResult)
    (q : QueryResult) (hq : q.ground_truth_docs = []) :
    valid_query_count (qrs ++ [q]) = valid_query_count qrs := by
  simp [valid_query_count, hq]

end SearchMetricsEvaluator

namespace RetrieverEvaluator

theorem mrrLoop_empty_gt :
    ∀ (ids : List String) (r : Nat),
      calculate_mrr_at_k.mrrLoop ids [] r = 0 := by
  intro ids
  induction ids with
  | nil => intro r; rfl
  | cons x xs ih => intro r; simp [calculate_mrr_at_k.mrrLoop, ih]

theorem evaluate_query_empty_gt_zero (retrieved : List String) :
    (evaluate_query retrieved []).recall20 = 0 ∧
    (evaluate_query retrieved []).ndcg10 = 0 ∧
    (evaluate_query retrieved []).mrr10 = 0 ∧
    (evaluate_query retrieved []).precision3 = 0 ∧
    (evaluate_query retrieved []).precision5 = 0 := by
  refine ⟨rfl, ?_, ?_, ?_, ?_⟩
  · show calculate_ndcg_at_k retrieved [] 10 = 0
    simp [calculate_ndcg_at_k, idcg_sum]
  · show calculate_mrr_at_k retrieved [] 10 = 0
    simp [calculate_mrr_at_k, mrrLoop_empty_gt]
  · show calculate_precision_at_k retrieved [] 3 = 0
    simp [calculate_precision_at_k, SearchMetricsEvaluator.interCard]
  · show calculate_precision_at_k retrieved [] 5 = 0
    simp [calculate_precision_at_k, SearchMetricsEvaluator.interCard]

theorem evaluate_all_queries_total (rs : List (String × Metrics))
    (hrs : rs ≠ []) :
    ∃ agg, evaluate_all_queries rs = some agg ∧
      agg.total_queries = rs.length := by
  have hn : ¬rs.length = 0 := by
    intro h
    exact hrs (List.length_eq_zero.mp h)
  simp only [evaluate_all_queries, if_neg hn]
  exact ⟨_, rfl, rfl⟩

end RetrieverEvaluator

/-! ### Claims about empty-ground-truth handling -/

/-- C7, counterexample: a batch of two queries, the second with an empty
ground-truth set, aggregated by RetrieverEvaluator.evaluate_all_queries.
The claim requires the empty-ground-truth query to be excluded from
every metric's average (included count dropping to 1, which for
recall@20 would make the average 1).  Instead the aggregation reports
total_queries = 2 and averages the second query's 0.0 recall into the
result, giving 1/2. -/
theorem retr_includes_empty_gt_counterexample :
    (RetrieverEvaluator.evaluate_all_queries
        [("q1", RetrieverEvaluator.evaluate_query ["A"] ["A"]),
         ("q2", RetrieverEvaluator.evaluate_query ["B"] [])]).map
      (fun agg => (agg.total_queries, agg.avg_recall20)) =
        some (2, 1/2) ∧
    ((1 : ℚ)/2 ≠ 1) := by
  constructor
  · simp only [RetrieverEvaluator.evaluate_all_queries,
      RetrieverEvaluator.evaluate_query, List.length_cons, List.length_nil]
    norm_num [RetrieverEvaluator.calculate_recall_at_k,
      SearchMetricsEvaluator.interCard, List.dedup, List.take, List.foldl,
      Option.map]
  · norm_num

open SearchMetricsEvaluator in
/-- C7, amended: SearchMetricsEvaluator excludes a query with empty
ground truth from every metric's average — appending such a query
changes neither any metric nor the included-query count.
RetrieverEvaluator, by contrast, keeps every query in the averaging
denominator, and its per-query metrics score an empty-ground-truth
query as 0.0 in each averaged metric. -/
theorem empty_gt_excluded_only_by_search_evaluator
    (qrs : List QueryResult) (q : QueryResult) (k : Nat)
    (hq : q.ground_truth_docs = [])
    (rs : List (String × RetrieverEvaluator.Metrics)) (hrs : rs ≠ [])
    (retrieved : List String) :
    valid_query_count (qrs ++ [q]) = valid_query_count qrs ∧
    calculate_recall_at_k (qrs ++ [q]) k = calculate_recall_at_k qrs k ∧
    calculate_precision_at_k (qrs ++ [q]) k =
      calculate_precision_at_k qrs k ∧
    calculate_mrr (qrs ++ [q]) = calculate_mrr qrs ∧
    calculate_map (qrs ++ [q]) = calculate_map qrs ∧
    calculate_ndcg (qrs ++ [q]) k = calculate_ndcg qrs k ∧
    (∃ agg, RetrieverEvaluator.evaluate_all_queries rs = some agg ∧
      agg.total_queries = rs.length) ∧
    (RetrieverEvaluator.evaluate_query retrieved []).recall20 = 0 ∧
    (RetrieverEvaluator.evaluate_query retrieved []).ndcg10 = 0 ∧
    (RetrieverEvaluator.evaluate_query retrieved []).mrr10 = 0 ∧
    (RetrieverEvaluator.evaluate_query retrieved []).precision3 = 0 ∧
    (RetrieverEvaluator.evaluate_query retrieved []).precision5 = 0 := by
  obtain ⟨z1, z2, z3, z4, z5⟩ :=
    RetrieverEvaluator.evaluate_query_empty_gt_zero retrieved
  exact ⟨valid_query_count_append_empty qrs q hq,
    averageSkippingEmpty_append_empty _ qrs q hq,
    averageSkippingEmpty_append_empty _ qrs q hq,
    averageSkippingEmpty_append_empty _ qrs q hq,
    averageSkippingEmpty_append_empty _ qrs q hq,
    calculate_ndcg_append_empty qrs q k hq,
    RetrieverEvaluator.evaluate_all_queries_total rs hrs,
    z1, z2, z3, z4, z5⟩

/-- Witness for the amended C7: one empty-ground-truth query appended to
an empty search batch, and a one-entry retriever batch. -/
theorem empty_gt_excluded_only_by_search_evaluator_witness :
    (SearchMetricsEvaluator.QueryResult.mk [] []).ground_truth_docs
      = [] ∧
    [("a", RetrieverEvaluator.evaluate_query [] [])] ≠
      ([] : List (String × RetrieverEvaluator.Metrics)) ∧
    SearchMetricsEvaluator.valid_query_count
        ([] ++ [SearchMetricsEvaluator.QueryResult.mk [] []]) =
      SearchMetricsEvaluator.valid_query_count [] ∧
    (RetrieverEvaluator.evaluate_query ["Z"] []).recall20 = 0 :=
  ⟨rfl, by simp,
    (empty_gt_excluded_only_by_search_evaluator []
      (SearchMetricsEvaluator.QueryResult.mk [] []) 3 rfl
      [("a", RetrieverEvaluator.evaluate_query [] [])] (by simp) ["Z"]).1,
    (empty_gt_excluded_only_by_search_evaluator []
      (SearchMetricsEvaluator.QueryResult.mk [] []) 3 rfl
      [("a", RetrieverEvaluator.evaluate_query [] [])] (by simp)
      ["Z"]).2.2.2.2.2.2.2.1⟩

/-! ### Lemmas and claims about the NDCG conventions -/

theorem retr_dcg_eq_spec (gt : List String) :
    ∀ (ids : List String) (i : Nat),
      RetrieverEvaluator.dcg_sum ids gt i = SpecNDCG.spec_dcg_sum ids gt i := by
  intro ids
  induction ids with
  | nil => intro i; rfl
  | cons x xs ih =>
      intro i
      simp only [RetrieverEvaluator.dcg_sum, SpecNDCG.spec_dcg_sum, ih]

theorem retr_idcg_eq_spec :
    ∀ n : Nat, RetrieverEvaluator.idcg_sum n = SpecNDCG.spec_idcg_sum n := by
  intro n
  induction n with
  | zero => rfl
  | succ n ih => simp only [RetrieverEvaluator.idcg_sum, SpecNDCG.spec_idcg_sum, ih]

open SearchMetricsEvaluator in
/-- C8, amended: RetrieverEvaluator's NDCG@k follows the spec's
permitted convention exactly (uniform 1/log2(rank+1) discount, IDCG
over min(k, number of ground-truth items) top ranks, 0 when IDCG is 0).
SearchMetricsEvaluator instead discounts with 1 at rank 1 and
1/log2(rank) — not log2(rank+1) — past it; it applies that one discount
consistently to both its DCG and its IDCG, with IDCG over
min(k, number of ground-truth items) top ranks and NDCG defined as 0
when IDCG is not positive. -/
theorem ndcg_conventions_amended :
    (∀ (retrieved gt : List String) (k : Nat),
      RetrieverEvaluator.calculate_ndcg_at_k retrieved gt k =
        SpecNDCG.spec_ndcg retrieved gt k) ∧
    (∀ (d : RetrievedDoc) (ds : List RetrievedDoc) (gt : List String)
        (rank : Nat),
      dcg_sum (d :: ds) gt rank =
        (if extract_doc_id d ≠ "" ∧ extract_doc_id d ∈ gt then (1 : ℝ)
          else 0) * searchDiscount rank + dcg_sum ds gt (rank + 1)) ∧
    (∀ n : Nat,
      ideal_dcg_sum (n + 1) = ideal_dcg_sum n + searchDiscount (n + 1)) ∧
    (∀ (qr : QueryResult) (k : Nat),
      ideal_dcg_at_k qr k =
        ideal_dcg_sum (min k qr.ground_truth_docs.length)) ∧
    (∀ (qr : QueryResult) (k : Nat),
      ndcg_per_query qr k =
        if 0 < ideal_dcg_at_k qr k then dcg_at_k qr k / ideal_dcg_at_k qr k
        else 0) := by
  refine ⟨?_, ?_, ?_, fun qr k => rfl, fun qr k => rfl⟩
  · intro retrieved gt k
    simp only [RetrieverEvaluator.calculate_ndcg_at_k, SpecNDCG.spec_ndcg,
      retr_dcg_eq_spec, retr_idcg_eq_spec, Nat.min_comm]
  · intro d ds gt rank
    by_cases h : rank = 1
    · simp [SearchMetricsEvaluator.dcg_sum, searchDiscount, h]
    · simp only [SearchMetricsEvaluator.dcg_sum, searchDiscount, if_neg h]
      rw [mul_one_div]
  · intro n
    simp only [SearchMetricsEvaluator.ideal_dcg_sum, searchDiscount]
    norm_cast

/-- C8, counterexample: the query with retrieved ids ["X", "A"] and
ground truth set with two entries, at k = 2.  The search evaluator
discounts the rank-2 hit by 1/log2(2) = 1, giving NDCG 1/2, while the
spec's permitted convention discounts it by 1/log2(3), giving
x/(1+x) for x = 1/log2(3) < 1 — a strictly smaller value.  So
SearchMetricsEvaluator's NDCG@k does not follow either permitted
discount convention. -/
theorem search_ndcg_convention_counterexample :
    (SearchMetricsEvaluator.QueryResult.mk
      [⟨some "X", none, none⟩, ⟨some "A", none, none⟩]
      ["A", "B"]).retrieved_docs.map SearchMetricsEvaluator.extract_doc_id
      = ["X", "A"] ∧
    SearchMetricsEvaluator.ndcg_per_query
      (SearchMetricsEvaluator.QueryResult.mk
        [⟨some "X", none, none⟩, ⟨some "A", none, none⟩] ["A", "B"]) 2 ≠
      SpecNDCG.spec_ndcg ["X", "A"] ["A", "B"] 2 := by
  have hlogb2 : Real.logb 2 2 = 1 := Real.logb_self_eq_one (by norm_num)
  have hlt : Real.logb 2 2 < Real.logb 2 3 :=
    Real.logb_lt_logb (by norm_num) (by norm_num) (by norm_num)
  have hlogb3 : 1 < Real.logb 2 3 := by rw [hlogb2] at hlt; exact hlt
  have hpos3 : 0 < Real.logb 2 3 := lt_trans one_pos hlogb3
  constructor
  · simp [SearchMetricsEvaluator.extract_doc_id, SearchMetricsEvaluator.pyOr]
  · have hsearch : SearchMetricsEvaluator.ndcg_per_query
        (SearchMetricsEvaluator.QueryResult.mk
          [⟨some "X", none, none⟩, ⟨some "A", none, none⟩] ["A", "B"]) 2
        = 1 / 2 := by
      simp [SearchMetricsEvaluator.ndcg_per_query,
        SearchMetricsEvaluator.dcg_at_k,
        SearchMetricsEvaluator.ideal_dcg_at_k,
        SearchMetricsEvaluator.dcg_sum,
        SearchMetricsEvaluator.ideal_dcg_sum,
        SearchMetricsEvaluator.extract_doc_id,
        SearchMetricsEvaluator.pyOr, hlogb2]
      norm_num
    have hne : (1 : ℝ) + 1 / Real.logb 2 3 ≠ 0 := by positivity
    have hspec : SpecNDCG.spec_ndcg ["X", "A"] ["A", "B"] 2 =
        (1 / Real.logb 2 3) / (1 + 1 / Real.logb 2 3) := by
      have hXA : ("X" : String) = "A" ↔ False := by simp
      have hXB : ("X" : String) = "B" ↔ False := by simp
      have hAA : ("A" : String) = "A" ↔ True := by simp
      have hne2 : (1 : ℝ) + (Real.logb 2 3)⁻¹ ≠ 0 := by positivity
      norm_num [SpecNDCG.spec_ndcg, SpecNDCG.spec_dcg_sum,
        SpecNDCG.spec_idcg_sum, hlogb2, hne2, hXA, hXB, hAA]
    rw [hsearch, hspec]
    have hx1 : 1 / Real.logb 2 3 < 1 := by
      rw [div_lt_one hpos3]; exact hlogb3
    have hx0 : 0 < 1 / Real.logb 2 3 := by positivity
    have hlt2 : (1 / Real.logb 2 3) / (1 + 1 / Real.logb 2 3) < 1 / 2 := by
      rw [div_lt_div_iff₀ (by linarith) (by norm_num)]
      linarith
    exact ne_of_gt hlt2
